import Mathlib

/-!
Verification of the phc library: a parser, serializer and typed
parameter-extraction framework for PHC (Password Hashing Competition)
strings.  The definitions below are a shallow embedding of the Rust
sources (src/parser.rs, src/raw.rs, src/salt.rs, src/params.rs):
strings are lists of characters, byte vectors are lists of naturals
below 256, fallible operations return Option, and the nom combinators
are modelled as functions from the remaining input to an optional pair
of (remaining input, parsed value).
-/

namespace Phc

/-! ## Base64 model (crate base64, STANDARD_NO_PAD configuration)

Unpadded standard-alphabet base64.  Decoding rejects characters outside
the alphabet, a final group of one symbol, and a final symbol carrying
nonzero unused trailing bits (the canonical-encoding check of
decode_config); encoding produces the unpadded canonical form used by
encode_config. -/

/-- Value of one standard-alphabet base64 symbol, or none. -/
def b64_val (c : Char) : Option Nat :=
  if 'A' ≤ c ∧ c ≤ 'Z' then some (c.toNat - 65)
  else if 'a' ≤ c ∧ c ≤ 'z' then some (c.toNat - 97 + 26)
  else if '0' ≤ c ∧ c ≤ '9' then some (c.toNat - 48 + 52)
  else if c = '+' then some 62
  else if c = '/' then some 63
  else none

/-- Map every character of the input to its symbol value, failing if any
character is outside the alphabet. -/
def b64_vals : List Char → Option (List Nat)
  | [] => some []
  | c :: rest =>
    match b64_val c, b64_vals rest with
    | some v, some vs => some (v :: vs)
    | _, _ => none

/-- Turn a list of sextet values into bytes.  A trailing group of one
symbol is invalid; trailing groups of two or three symbols must have
zero unused bits. -/
def decode_chunks : List Nat → Option (List Nat)
  | [] => some []
  | [_] => none
  | [a, b] => if b % 16 = 0 then some [a * 4 + b / 16] else none
  | [a, b, c] =>
    if c % 4 = 0 then some [a * 4 + b / 16, b % 16 * 16 + c / 4] else none
  | a :: b :: c :: d :: rest =>
    (decode_chunks rest).map
      (fun tl => (a * 4 + b / 16) :: (b % 16 * 16 + c / 4) :: (c % 4 * 64 + d) :: tl)

/-- Model of decode_config(s, STANDARD_NO_PAD). -/
def decode_b64 (s : List Char) : Option (List Nat) :=
  match b64_vals s with
  | none => none
  | some vals => decode_chunks vals

/-- Character for a sextet value below 64. -/
def b64_char (n : Nat) : Char :=
  if n < 26 then Char.ofNat (65 + n)
  else if n < 52 then Char.ofNat (97 + (n - 26))
  else if n < 62 then Char.ofNat (48 + (n - 52))
  else if n = 62 then '+'
  else '/'

/-- Model of encode_config(bytes, STANDARD_NO_PAD). -/
def encode_b64 : List Nat → List Char
  | [] => []
  | [b1] => [b64_char (b1 / 4), b64_char (b1 % 4 * 16)]
  | [b1, b2] =>
    [b64_char (b1 / 4), b64_char (b1 % 4 * 16 + b2 / 16), b64_char (b2 % 16 * 4)]
  | b1 :: b2 :: b3 :: rest =>
    b64_char (b1 / 4) :: b64_char (b1 % 4 * 16 + b2 / 16) ::
      b64_char (b2 % 16 * 4 + b3 / 64) :: b64_char (b3 % 64) :: encode_b64 rest

/-! ## Salt model (src/salt.rs) -/

/-- Salt value used in hashing: an ASCII token or a binary payload. -/
inductive Salt where
  | Ascii (s : List Char)
  | Binary (b : List Nat)
deriving DecidableEq

/-- Salt::as_binary: reinterpret an Ascii salt as Binary by attempting a
base64 decode; on failure the value is returned unchanged, and a Binary
value is returned as is. -/
def Salt.as_binary : Salt → Salt
  | .Ascii a =>
    match decode_b64 a with
    | some b => .Binary b
    | none => .Ascii a
  | .Binary b => .Binary b

/-- Display for Salt: Ascii renders verbatim, Binary renders as unpadded
base64. -/
def Salt.text : Salt → List Char
  | .Ascii a => a
  | .Binary b => encode_b64 b

/-! ## SaltAndHash and RawPHC (src/raw.rs) -/

/-- Salt and hash information stored in the PHC string. -/
inductive SaltAndHash where
  | Neither
  | Salt (s : Phc.Salt)
  | Both (salt : Phc.Salt) (hash : List Nat)
deriving DecidableEq

/-- SaltAndHash::from_option: build a SaltAndHash from a nested optional
pair of salt and optional hash. -/
def SaltAndHash.from_option : Option (Phc.Salt × Option (List Nat)) → SaltAndHash
  | none => .Neither
  | some (s, none) => .Salt s
  | some (s, some h) => .Both s h

/-- SaltAndHash::salt accessor. -/
def SaltAndHash.salt : SaltAndHash → Option Phc.Salt
  | .Neither => none
  | .Salt s => some s
  | .Both s _ => some s

/-- SaltAndHash::hash accessor, some only in the Both case. -/
def SaltAndHash.hash : SaltAndHash → Option (List Nat)
  | .Neither => none
  | .Salt _ => none
  | .Both _ h => some h

/-- Display for SaltAndHash as written in src/raw.rs: nothing for
Neither, the salt text for the Salt case, and the salt text, a dollar
sign and the base64 hash for the Both case. -/
def SaltAndHash.text : SaltAndHash → List Char
  | .Neither => []
  | .Salt s => s.text
  | .Both s h => s.text ++ '$' :: encode_b64 h

/-- A parsed PHC string not yet associated with a hash function. -/
structure RawPHC where
  id : List Char
  params : List (List Char × List Char)
  salt_and_hash : SaltAndHash
deriving DecidableEq

/-- RawPHC::salt accessor. -/
def RawPHC.salt (r : RawPHC) : Option Phc.Salt :=
  r.salt_and_hash.salt

/-- RawPHC::hash accessor. -/
def RawPHC.hash (r : RawPHC) : Option (List Nat) :=
  r.salt_and_hash.hash

/-- Text of one name=value parameter pair. -/
def one_param_text (kv : List Char × List Char) : List Char :=
  kv.1 ++ '=' :: kv.2

/-- Text of the parameter pairs after the first, each preceded by a
comma. -/
def rest_params_text : List (List Char × List Char) → List Char
  | [] => []
  | kv :: rest => ',' :: one_param_text kv ++ rest_params_text rest

/-- Display for RawPHC: a dollar sign and the id, then, only when the
parameter list is non-empty, a dollar sign and the comma-joined pairs,
then the SaltAndHash text. -/
def RawPHC.text (r : RawPHC) : List Char :=
  '$' :: r.id ++
    (match r.params with
     | [] => []
     | kv :: rest => '$' :: one_param_text kv ++ rest_params_text rest) ++
    r.salt_and_hash.text

/-! ## Grammar (src/parser.rs)

Each nom combinator becomes a function from the input to an optional
pair of remaining input and parsed value; none models Err::Error (the
only error kind these combinators produce, which or_else! and opt!
catch). -/

/-- Character class of ids and parameter names. -/
def is_name_char (c : Char) : Bool :=
  decide ('a' ≤ c ∧ c ≤ 'z') || decide ('0' ≤ c ∧ c ≤ '9') || c == '-'

/-- Character class of parameter values and salts. -/
def is_value_char (c : Char) : Bool :=
  decide ('a' ≤ c ∧ c ≤ 'z') || decide ('A' ≤ c ∧ c ≤ 'Z') ||
    decide ('0' ≤ c ∧ c ≤ '9') || c == '/' || c == '+' || c == '.' || c == '-'

/-- Character class of base64 hash tokens. -/
def is_base_64_char (c : Char) : Bool :=
  decide ('a' ≤ c ∧ c ≤ 'z') || decide ('A' ≤ c ∧ c ≤ 'Z') ||
    decide ('0' ≤ c ∧ c ≤ '9') || c == '/' || c == '+'

/-- nom char!: consume exactly the given character. -/
def pchar (c : Char) : List Char → Option (List Char × Char)
  | [] => none
  | x :: rest => if x = c then some (rest, c) else none

/-- nom take_while1!: consume the longest nonempty run of characters
satisfying p; fail if it is empty. -/
def take_while1 (p : Char → Bool) (i : List Char) : Option (List Char × List Char) :=
  if i.takeWhile p = [] then none else some (i.dropWhile p, i.takeWhile p)

/-- Combinator name: a nonempty run of name characters. -/
def name (i : List Char) : Option (List Char × List Char) :=
  take_while1 is_name_char i

/-- Combinator value: a nonempty run of value characters. -/
def value (i : List Char) : Option (List Char × List Char) :=
  take_while1 is_value_char i

/-- Combinator base_64: a nonempty run of base64 characters, decoded
with decode_config; a decode failure is a parse failure of this
combinator (map_res!). -/
def base_64 (i : List Char) : Option (List Char × List Nat) :=
  match take_while1 is_base_64_char i with
  | none => none
  | some (rest, enc) =>
    match decode_b64 enc with
    | none => none
    | some bs => some (rest, bs)

/-- Combinator id: a dollar sign followed by a name. -/
def id (i : List Char) : Option (List Char × List Char) :=
  match pchar '$' i with
  | none => none
  | some (i1, _) => name i1

/-- One name=value pair (separated_pair!(name, char!('='), value)). -/
def param_pair (i : List Char) : Option (List Char × (List Char × List Char)) :=
  match name i with
  | none => none
  | some (i1, k) =>
    match pchar '=' i1 with
    | none => none
    | some (i2, _) =>
      match value i2 with
      | none => none
      | some (i3, v) => some (i3, (k, v))

/-- Loop of separated_nonempty_list!(char!(','), pair): repeatedly take
a comma and a further pair, stopping (without consuming the comma) as
soon as either fails.  The fuel argument only bounds the recursion; one
unit per remaining input character is always enough because every
iteration consumes at least one character. -/
def sep_list_rest : Nat → List Char → List (List Char × List Char) →
    List Char × List (List Char × List Char)
  | 0, i, acc => (i, acc.reverse)
  | fuel + 1, i, acc =>
    match pchar ',' i with
    | none => (i, acc.reverse)
    | some (i1, _) =>
      match param_pair i1 with
      | none => (i, acc.reverse)
      | some (i2, kv) => sep_list_rest fuel i2 (kv :: acc)

/-- separated_nonempty_list!(char!(','), name=value pair). -/
def sep_params (i : List Char) : Option (List Char × List (List Char × List Char)) :=
  match param_pair i with
  | none => none
  | some (i1, kv) => some (sep_list_rest i1.length i1 [kv])

/-- The body of the params combinator before the or_else! wrapper: a
dollar sign followed by the nonempty comma-separated pair list. -/
def params_attempt (i : List Char) : Option (List Char × List (List Char × List Char)) :=
  match pchar '$' i with
  | none => none
  | some (i1, _) => sep_params i1

/-- Combinator params: the attempt above, with or_else! falling back to
the untouched input and an empty list when the attempt fails. -/
def params (i : List Char) : Option (List Char × List (List Char × List Char)) :=
  match params_attempt i with
  | none => some (i, [])
  | some r => some r

/-- The body of the salt_and_hash combinator inside opt!: a dollar sign
and a value token, then optionally a dollar sign and a base64 token;
the inner opt! restores the input when the hash part fails. -/
def salt_hash_attempt (i : List Char) :
    Option (List Char × (List Char × Option (List Nat))) :=
  match pchar '$' i with
  | none => none
  | some (i1, _) =>
    match value i1 with
    | none => none
    | some (i2, saltTok) =>
      match (match pchar '$' i2 with
             | none => none
             | some (i3, _) => base_64 i3) with
      | none => some (i2, (saltTok, none))
      | some (i4, h) => some (i4, (saltTok, some h))

/-- Combinator salt_and_hash: opt! around the attempt, mapped through
SaltAndHash::from_option; the salt token is converted to a Salt through
the From instance for strings, which yields Ascii. -/
def salt_and_hash (i : List Char) : Option (List Char × SaltAndHash) :=
  match salt_hash_attempt i with
  | none => some (i, SaltAndHash.from_option none)
  | some (i2, (s, oh)) => some (i2, SaltAndHash.from_option (some (Salt.Ascii s, oh)))

/-- Combinator phc: id, then params, then salt_and_hash, assembled with
RawPHC::from_parts. -/
def phc (i : List Char) : Option (List Char × RawPHC) :=
  match id i with
  | none => none
  | some (i1, idTok) =>
    match params i1 with
    | none => none
    | some (i2, ps) =>
      match salt_and_hash i2 with
      | none => none
      | some (i3, sh) => some (i3, ⟨idTok, ps, sh⟩)

/-- parse_phc: run the phc combinator and keep only the parsed value,
discarding the remaining input. -/
def parse_phc (raw : List Char) : Option RawPHC :=
  (phc raw).map (fun x => x.2)

/-! ## Parameter extraction framework (src/params.rs)

The Rust trait Param becomes a structure bundling the four trait
methods; GenParam keeps only a name and an optional default, and its
Param implementation is produced by toParam from the FromStr and
Display capabilities of the value type. -/

/-- The Param trait: name, optional default, extraction from text and
serialization to optional text. -/
structure Param (α : Type) where
  name : List Char
  default : Option α
  extract : List Char → Option α
  serialize : α → Option (List Char)

/-- GenParam: a name and an optional default value. -/
structure GenParam (α : Type) where
  name : List Char
  default : Option α

/-- The impl of Param for GenParam, given the FromStr model fromStr and
the Display model toText of the value type: extract parses the raw
text, and serialize renders the value unless it equals the declared
default. -/
def GenParam.toParam [DecidableEq α] (fromStr : List Char → Option α)
    (toText : α → List Char) (g : GenParam α) : Param α :=
  { name := g.name
    default := g.default
    extract := fun raw => fromStr raw
    serialize := fun v =>
      match g.default with
      | none => some (toText v)
      | some d => if v ≠ d then some (toText v) else none }

/-- Model of u32::from_str: an optional plus sign, then a nonempty run
of decimal digits whose value fits in 32 bits. -/
def parse_u32 (s : List Char) : Option Nat :=
  let body := match s with
    | '+' :: rest => rest
    | _ => s
  if body = [] then none
  else if body.all (fun c => decide ('0' ≤ c ∧ c ≤ '9')) then
    let n := body.foldl (fun acc c => acc * 10 + (c.toNat - 48)) 0
    if n < 4294967296 then some n else none
  else none

/-- Model of the Display impl for u32: decimal digits. -/
def u32_text (n : Nat) : List Char :=
  Nat.toDigits 10 n

/-- Model of bool::from_str: exactly the strings true and false. -/
def parse_bool (s : List Char) : Option Bool :=
  if s = "true".data then some true
  else if s = "false".data then some false
  else none

/-- Model of the Display impl for bool. -/
def bool_text : Bool → List Char
  | true => "true".data
  | false => "false".data

/-- The declared parameter i of unsigned-integer type, no default. -/
def param_i : Param Nat :=
  GenParam.toParam parse_u32 u32_text ⟨"i".data, none⟩

/-- The declared parameter mem of boolean type with default true. -/
def param_mem : Param Bool :=
  GenParam.toParam parse_bool bool_text ⟨"mem".data, some true⟩

/-- RawParamSlice::next_if_key: if the first raw pair has the given
key, yield its value and the advanced slice, otherwise nothing. -/
def next_if_key (key : List Char) :
    List (List Char × List Char) → Option (List Char × List (List Char × List Char))
  | [] => none
  | (k, v) :: rest => if k = key then some (v, rest) else none

/-- RawParamSlice::extract_single, with the mutable slice made an
explicit part of the result: on a key match the pair is consumed and
its value extracted, otherwise the slice is unchanged and the default
is used. -/
def extract_single (p : Param α) (raw : List (List Char × List Char)) :
    Option (α × List (List Char × List Char)) :=
  match next_if_key p.name raw with
  | none => p.default.map (fun d => (d, raw))
  | some (v, rest) => (p.extract v).map (fun x => (x, rest))

/-- The ParamSet impl for a single Param. -/
def extract_set_one (p : Param α) (raw : List (List Char × List Char)) : Option α :=
  (extract_single p raw).map (fun x => x.1)

/-- The ParamSet impl for a pair of Params, as produced by the
tuple_param_set macro at arity two: extract each declared parameter in
order, threading the slice, and fail as soon as one fails. -/
def extract_set_pair (p : Param α) (q : Param β) (raw : List (List Char × List Char)) :
    Option (α × β) :=
  match extract_single p raw with
  | none => none
  | some (a, raw1) =>
    match extract_single q raw1 with
    | none => none
    | some (b, _) => some (a, b)

/-! ## Theorems about the claims -/

/-- Helper: extract_single on a slice with a first pair either consumes
that pair on a key match or keeps the whole slice and uses the
default. -/
theorem extract_single_cons (p : Param α) (k v : List Char)
    (rest : List (List Char × List Char)) :
    extract_single p ((k, v) :: rest) =
      if k = p.name then (p.extract v).map (fun x => (x, rest))
      else p.default.map (fun d => (d, (k, v) :: rest)) := by
  by_cases h : k = p.name <;> simp [extract_single, next_if_key, h]

/-- C1: the round-trip claim is a code bug.  The input
"$abc-123$abcdefg" is accepted by parse_phc with nothing left over
(phc consumes the whole input), yet Display renders the resulting
record as "$abc-123abcdefg": the Display impl for SaltAndHash omits
the dollar sign that introduces the salt segment, so serialization
does not reproduce the accepted input character for character. -/
theorem C1_roundtrip_fails_on_code :
    phc "$abc-123$abcdefg".data =
      some ([], ⟨"abc-123".data, [], .Salt (.Ascii "abcdefg".data)⟩) ∧
    RawPHC.text ⟨"abc-123".data, [], .Salt (.Ascii "abcdefg".data)⟩ =
      "$abc-123abcdefg".data ∧
    "$abc-123abcdefg".data ≠ "$abc-123$abcdefg".data :=
  ⟨by decide, by decide, by decide⟩

/-- C2 counterexample: the claim says parse_phc fails on "$abc_123"
because the underscore leaves unconsumed input; in fact parse_phc
succeeds on it. -/
theorem C2_counterexample : parse_phc "$abc_123".data ≠ none := by decide

/-- C2 (amended): a successful parse need not consume the entire
input; parse_phc keeps the parsed value of the phc combinator and
discards whatever input remains, and on "$abc_123" the combinator
stops before the underscore, leaving "_123" unconsumed and returning a
RawPHC built from the prefix "$abc". -/
theorem C2_trailing_input_discarded :
    (∀ i rem r, phc i = some (rem, r) → parse_phc i = some r) ∧
    phc "$abc_123".data = some ("_123".data, ⟨"abc".data, [], .Neither⟩) := by
  constructor
  · intro i rem r h
    simp [parse_phc, h]
  · decide

/-- Witness for C2: the amended theorem applied at the concrete
input. -/
theorem C2_trailing_input_discarded_witness :
    parse_phc "$abc_123".data = some ⟨"abc".data, [], .Neither⟩ :=
  C2_trailing_input_discarded.1 _ "_123".data _ (by decide)

/-- C3 counterexample: in "$abc-123$abcdefg$a" the parser commits to
the hash token "a" after the salt, the token fails base64 decoding
(one symbol is an invalid length), and the claim says the whole parse
must fail; in fact parse_phc succeeds. -/
theorem C3_counterexample : parse_phc "$abc-123$abcdefg$a".data ≠ none := by
  decide

/-- C3 (amended): when the committed hash token fails to decode, the
parse does not fail; the opt! combinator abandons the hash branch and
salt_and_hash returns a salt-only result, leaving the dollar sign and
the token unconsumed (parse_phc then discards them).  Concretely,
"$abc-123$abcdefg$a" parses to salt Ascii "abcdefg" with no hash. -/
theorem C3_decode_failure_soft_recovers :
    (∀ (i i1 i2 i3 saltTok : List Char) (c : Char),
        pchar '$' i = some (i1, '$') →
        value i1 = some (i2, saltTok) →
        pchar '$' i2 = some (i3, c) →
        base_64 i3 = none →
        salt_and_hash i = some (i2, .Salt (.Ascii saltTok))) ∧
    parse_phc "$abc-123$abcdefg$a".data =
      some ⟨"abc-123".data, [], .Salt (.Ascii "abcdefg".data)⟩ := by
  constructor
  · intro i i1 i2 i3 saltTok c h1 h2 h3 h4
    simp [salt_and_hash, salt_hash_attempt, h1, h2, h3, h4,
      SaltAndHash.from_option]
  · decide

/-- Witness for C3: the amended theorem applied to the concrete salt
and failing hash token; the result leaves "$a" unconsumed. -/
theorem C3_decode_failure_soft_recovers_witness :
    salt_and_hash "$abcdefg$a".data =
      some ("$a".data, .Salt (.Ascii "abcdefg".data)) :=
  C3_decode_failure_soft_recovers.1 "$abcdefg$a".data "abcdefg$a".data
    "$a".data "a".data "abcdefg".data '$'
    (by decide) (by decide) (by decide) (by decide)

/-- C4: the phc combinator runs params before salt_and_hash, and
params is the or_else! wrapper around its attempt: when the attempt
fails the input is left untouched and the empty list is returned, and
when it succeeds its result is passed through.  Concretely,
"$abc-123$abcdefg$aGVsbG8" parses with no params, salt
Ascii "abcdefg", and hash bytes 104 101 108 108 111 (the string
hello). -/
theorem C4_params_fallback :
    (∀ i, params_attempt i = none → params i = some (i, [])) ∧
    (∀ i r, params_attempt i = some r → params i = some r) ∧
    parse_phc "$abc-123$abcdefg$aGVsbG8".data =
      some ⟨"abc-123".data, [],
        .Both (.Ascii "abcdefg".data) [104, 101, 108, 108, 111]⟩ := by
  refine ⟨?_, ?_, by decide⟩
  · intro i h
    unfold params
    rw [h]
  · intro i r h
    unfold params
    rw [h]

/-- Witness for C4: the fallback branch on an input with no dollar
sign, and the pass-through branch on a one-parameter segment. -/
theorem C4_params_fallback_witness :
    params "x".data = some ("x".data, []) ∧
    params "$i=1".data = some ([], [("i".data, "1".data)]) :=
  ⟨C4_params_fallback.1 _ (by decide), C4_params_fallback.2.1 _ _ (by decide)⟩

/-- C5: the cursor algorithm of parameter-set extraction.  When the
pair at the cursor has the declared name, it is consumed and its value
passed to extract; when next_if_key finds no match, the cursor stays
and the default is used; a pair extraction fails as soon as its first
parameter fails to resolve; and on the declared set of an integer i
and a boolean mem with default true, the raw pairs i 10000 and
mem heap fail as a whole (heap is not a boolean), while the raw pair
i 10000 alone yields 10000 paired with the default true. -/
theorem C5_cursor_extraction :
    (∀ (α : Type) (p : Param α) (v : List Char)
        (rest : List (List Char × List Char)),
        extract_single p ((p.name, v) :: rest) =
          (p.extract v).map (fun x => (x, rest))) ∧
    (∀ (α : Type) (p : Param α) (raw : List (List Char × List Char)),
        next_if_key p.name raw = none →
        extract_single p raw = p.default.map (fun d => (d, raw))) ∧
    (∀ (α β : Type) (a : Param α) (b : Param β)
        (raw : List (List Char × List Char)),
        extract_single a raw = none → extract_set_pair a b raw = none) ∧
    extract_set_pair param_i param_mem
      [("i".data, "10000".data), ("mem".data, "heap".data)] = none ∧
    extract_set_pair param_i param_mem [("i".data, "10000".data)] =
      some (10000, true) := by
  refine ⟨?_, ?_, ?_, by decide, by decide⟩
  · intro α p v rest
    simp [extract_single, next_if_key]
  · intro α p raw h
    simp [extract_single, h]
  · intro α β a b raw h
    simp [extract_set_pair, h]

/-- Witness for C5: the default branch of extract_single at a
non-matching pair, and the fail-fast branch of the pair extraction on
an empty slice where the required parameter i has no default. -/
theorem C5_cursor_extraction_witness :
    extract_single param_mem [("x".data, "y".data)] =
      some (true, [("x".data, "y".data)]) ∧
    extract_set_pair param_i param_mem [] = none :=
  ⟨(C5_cursor_extraction.2.1 Bool param_mem
      [("x".data, "y".data)] (by decide)).trans (by decide),
   C5_cursor_extraction.2.2.1 Nat Bool param_i param_mem [] (by decide)⟩

/-- C6: a hash can never appear without a salt.  from_option maps the
absent pair to Neither, a salt alone to the Salt case and a salt with
a hash to Both, and for every SaltAndHash and every RawPHC, if the
hash accessor returns a value then the salt accessor does too. -/
theorem C6_no_hash_without_salt :
    SaltAndHash.from_option none = .Neither ∧
    (∀ s, SaltAndHash.from_option (some (s, none)) = .Salt s) ∧
    (∀ s h, SaltAndHash.from_option (some (s, some h)) = .Both s h) ∧
    (∀ sh : SaltAndHash, sh.hash.isSome = true → sh.salt.isSome = true) ∧
    (∀ r : RawPHC, r.hash.isSome = true → r.salt.isSome = true) := by
  refine ⟨rfl, fun s => rfl, fun s h => rfl, ?_, ?_⟩
  · intro sh h
    cases sh <;> simp_all [SaltAndHash.hash, SaltAndHash.salt]
  · intro r h
    cases hsh : r.salt_and_hash <;>
      simp_all [RawPHC.hash, RawPHC.salt, SaltAndHash.hash, SaltAndHash.salt]

/-- Witness for C6: the accessor implication applied at a concrete
record holding both a salt and a hash. -/
theorem C6_no_hash_without_salt_witness :
    (RawPHC.salt ⟨"a".data, [], .Both (.Ascii "b".data) [1]⟩).isSome = true :=
  C6_no_hash_without_salt.2.2.2.2 ⟨"a".data, [], .Both (.Ascii "b".data) [1]⟩
    (by decide)

/-- C7: a record with an empty parameter list emits no parameter
segment at all, while a non-empty list is rendered as one dollar sign
followed by the name=value pairs joined by commas; concretely the
record with id abc-123 and no params renders as "$abc-123" and not
"$abc-123$", and with pairs i 10000 and mem heap it renders as
"$abc-123$i=10000,mem=heap". -/
theorem C7_empty_params_omitted :
    (∀ (idTok : List Char) (sh : SaltAndHash),
        RawPHC.text ⟨idTok, [], sh⟩ = '$' :: idTok ++ sh.text) ∧
    (∀ (idTok : List Char) (sh : SaltAndHash)
        (kv : List Char × List Char) (rest : List (List Char × List Char)),
        RawPHC.text ⟨idTok, kv :: rest, sh⟩ =
          '$' :: idTok ++ '$' :: one_param_text kv ++
            rest_params_text rest ++ sh.text) ∧
    RawPHC.text ⟨"abc-123".data, [], .Neither⟩ = "$abc-123".data ∧
    RawPHC.text ⟨"abc-123".data, [], .Neither⟩ ≠ "$abc-123$".data ∧
    RawPHC.text ⟨"abc-123".data,
        [("i".data, "10000".data), ("mem".data, "heap".data)], .Neither⟩ =
      "$abc-123$i=10000,mem=heap".data := by
  refine ⟨?_, ?_, by decide, by decide, by decide⟩
  · intro idTok sh
    simp [RawPHC.text]
  · intro idTok sh kv rest
    simp [RawPHC.text]

/-- C8 counterexample: the parameter mem with default true, given the
value false, serializes to the text false, not to the text mem=false
as the claim states; GenParam::serialize renders only the value. -/
theorem C8_counterexample :
    param_mem.serialize false = some "false".data ∧
    some "false".data ≠ some "mem=false".data :=
  ⟨by decide, by decide⟩

/-- C8 (amended): per-parameter serialization implements default
elision on the value text.  For a parameter declared with a default,
serialize returns nothing exactly when the value equals the default
and the rendered value text otherwise; a parameter without a default
always returns the rendered value text.  The mem parameter with
default true serializes true to nothing and false to the text false
(the name and equals sign are added by the record serializer, not
here). -/
theorem C8_default_elision :
    (∀ (α : Type) [DecidableEq α] (fs : List Char → Option α)
        (ts : α → List Char) (nm : List Char) (d v : α),
        (GenParam.toParam fs ts ⟨nm, some d⟩).serialize v =
          if v = d then none else some (ts v)) ∧
    (∀ (α : Type) [DecidableEq α] (fs : List Char → Option α)
        (ts : α → List Char) (nm : List Char) (v : α),
        (GenParam.toParam fs ts ⟨nm, none⟩).serialize v = some (ts v)) ∧
    param_mem.serialize true = none ∧
    param_mem.serialize false = some "false".data ∧
    param_i.serialize 10000 = some (u32_text 10000) := by
  refine ⟨?_, ?_, by decide, by decide, by decide⟩
  · intro α inst fs ts nm d v
    by_cases h : v = d <;> simp [GenParam.toParam, h]
  · intro α inst fs ts nm v
    simp [GenParam.toParam]

/-- C9: reinterpreting a salt as binary never fails.  An Ascii salt
whose text decodes as unpadded standard base64 becomes the decoded
Binary salt, an Ascii salt whose text fails to decode is returned
unchanged, and a Binary salt is returned unchanged. -/
theorem C9_as_binary_total :
    (∀ a b, decode_b64 a = some b →
        Salt.as_binary (.Ascii a) = .Binary b) ∧
    (∀ a, decode_b64 a = none → Salt.as_binary (.Ascii a) = .Ascii a) ∧
    (∀ b, Salt.as_binary (.Binary b) = .Binary b) := by
  refine ⟨?_, ?_, fun b => rfl⟩
  · intro a b h
    simp [Salt.as_binary, h]
  · intro a h
    simp [Salt.as_binary, h]

/-- Witness for C9: the doctest values of Salt::as_binary, a valid
base64 text decoding to the bytes of the string some salt and an
invalid one returned unchanged. -/
theorem C9_as_binary_total_witness :
    Salt.as_binary (.Ascii "c29tZSBzYWx0".data) =
      .Binary [115, 111, 109, 101, 32, 115, 97, 108, 116] ∧
    Salt.as_binary (.Ascii "Not salt!".data) = .Ascii "Not salt!".data :=
  ⟨C9_as_binary_total.1 "c29tZSBzYWx0".data _ (by decide),
   C9_as_binary_total.2.1 "Not salt!".data (by decide)⟩

/-- C10: extraction ignores surplus raw pairs.  The result of a
one-parameter set on a slice never depends on the pairs after the
first, the result of a two-parameter set never depends on the pairs
after the second, and the declared integer parameter i extracts 1 from
the raw pairs i 1 and x y, the leftover pair being discarded. -/
theorem C10_surplus_pairs_ignored :
    (∀ (α : Type) (p : Param α) (kv : List Char × List Char)
        (rest rest2 : List (List Char × List Char)),
        extract_set_one p (kv :: rest) = extract_set_one p (kv :: rest2)) ∧
    (∀ (α β : Type) (a : Param α) (b : Param β)
        (k1 k2 : List Char × List Char)
        (rest rest2 : List (List Char × List Char)),
        extract_set_pair a b (k1 :: k2 :: rest) =
          extract_set_pair a b (k1 :: k2 :: rest2)) ∧
    extract_set_one param_i [("i".data, "1".data), ("x".data, "y".data)] =
      some 1 := by
  refine ⟨?_, ?_, by decide⟩
  · intro α p kv rest rest2
    obtain ⟨k, v⟩ := kv
    by_cases h : k = p.name <;>
      simp [extract_set_one, extract_single, next_if_key, h] <;>
      cases p.extract v <;> cases p.default <;> simp
  · intro α β a b k1 k2 rest rest2
    obtain ⟨x1, v1⟩ := k1
    obtain ⟨x2, v2⟩ := k2
    simp only [extract_set_pair, extract_single_cons]
    by_cases h1 : x1 = a.name
    · rw [if_pos h1, if_pos h1]
      cases hae : a.extract v1 with
      | none => rfl
      | some av =>
        by_cases h2 : x2 = b.name
        · cases hbe : b.extract v2 <;>
            simp [extract_single_cons, h2, hbe]
        · cases hbd : b.default <;>
            simp [extract_single_cons, h2, hbd]
    · rw [if_neg h1, if_neg h1]
      cases had : a.default with
      | none => rfl
      | some ad =>
        by_cases h2 : x1 = b.name
        · cases hbe : b.extract v1 <;>
            simp [extract_single_cons, h2, hbe]
        · cases hbd : b.default <;>
            simp [extract_single_cons, h2, hbd]

end Phc
